import Mathlib

/-!
# Verification of the Kevin sandboxed action-execution runtime

Shallow embedding of the runtime core of the Kevin repository:

* `openhands/runtime/plugins/agent_skills/file_ops/file_ops.py`
  (`_edit_file_impl`, `_edit_impl`, `_insert_impl`, `_append_impl`,
  `indent_lines`, `get_indent_level`, `subtract_strings`, `_lint_file`);
* `openhands/runtime/utils/bash_pexpect.py`
  (`BashSession.execute`, `escape_bash_special_chars`, `BashCommandStatus`);
* `openhands/runtime/action_execution_server.py`
  (`ActionExecutor.write`, `ActionExecutor.read`, `ActionExecutor.run_ipython`,
  `ActionExecutor.chdir`).

Python strings are modelled as Lean `String`s and the Python string
primitives used by the code (`split`, `splitlines`, `strip`, `startswith`,
`count`, slicing, `str.replace`, `re.sub` for the two fixed patterns the
code uses) are re-implemented character-exactly below.  The filesystem is an
association list from path to file content; `os.replace`, `open(..., 'w')`
and `os.unlink` become pure operations on it.  External collaborators (the
linter, the Jupyter kernel, the `bashlex` parser) are oracles passed in as
parameters, exactly at the boundary the code calls them.
-/

namespace Kevin

/-! ## Python string primitives -/

/-- Python `s[n:]` on a string (slicing by code points). -/
def pyDrop (s : String) (n : Nat) : String :=
  String.mk (s.data.drop n)

/-- Python `s[a:b]` on a string (clamping; `b < a` gives `""`). -/
def pySlice (s : String) (a b : Nat) : String :=
  String.mk ((s.data.drop a).take (b - a))

/-- Python `str.strip()` (no arguments): strip whitespace from both ends. -/
def pyStrip (s : String) : String :=
  String.mk (((s.data.dropWhile Char.isWhitespace).reverse.dropWhile Char.isWhitespace).reverse)

/-- Python `str.lstrip()`. -/
def pyLstrip (s : String) : String :=
  String.mk (s.data.dropWhile Char.isWhitespace)

/-- Python `str.rstrip()`. -/
def pyRstrip (s : String) : String :=
  String.mk ((s.data.reverse.dropWhile Char.isWhitespace).reverse)

/-- Python `p in s` for char lists (substring containment). -/
def containsAux (pat : List Char) : List Char → Bool
  | [] => pat.isEmpty
  | c :: rest => pat.isPrefixOf (c :: rest) || containsAux pat rest

/-- Python `pat in s` (substring containment). -/
def strContains (s pat : String) : Bool :=
  containsAux pat.data s.data

/-- Python `s.startswith(p)`. -/
def pyStartsWith (s p : String) : Bool :=
  p.data.isPrefixOf s.data

/-- Python `s.endswith(p)`. -/
def pyEndsWith (s p : String) : Bool :=
  p.data.isSuffixOf s.data

/-- Python `''.join(l)`: plain concatenation. -/
def strConcat : List String → String
  | [] => ""
  | x :: xs => x ++ strConcat xs

/-- Python `sep.join(l)`. -/
def joinSep (sep : String) : List String → String
  | [] => ""
  | [x] => x
  | x :: y :: xs => x ++ sep ++ joinSep sep (y :: xs)

/-- Helper for Python `str.split(c)` for a one-character separator. -/
def splitChAux (c : Char) : List Char → List Char → List (List Char)
  | [], acc => [acc.reverse]
  | x :: rest, acc =>
    if x = c then acc.reverse :: splitChAux c rest []
    else splitChAux c rest (x :: acc)

/-- Python `s.split(c)` for a one-character separator (`'' -> ['']`,
separators at the ends give empty pieces, exactly as in Python). -/
def splitCh (c : Char) (s : String) : List String :=
  (splitChAux c s.data []).map String.mk

/-- Helper for `splitlines(keepends=True)`: split after every newline,
dropping a trailing empty piece. -/
def splitKeepAux : List Char → List Char → List (List Char)
  | [], acc => if acc.isEmpty then [] else [acc.reverse]
  | x :: rest, acc =>
    if x = '\n' then (acc.reverse ++ ['\n']) :: splitKeepAux rest []
    else splitKeepAux rest (x :: acc)

/-- Python `s.splitlines(keepends=True)`, also the value of
`file.readlines()` for a file holding `s` (newline is the only line break
our files contain). -/
def linesKeep (s : String) : List String :=
  (splitKeepAux s.data []).map String.mk

/-- Python `s.splitlines()` (line terminators removed). -/
def splitlinesStr (s : String) : List String :=
  (splitKeepAux s.data []).map fun l => String.mk (if l.getLast? = some '\n' then l.dropLast else l)

/-- Non-overlapping substring count (helper for Python `s.count(p)` with
nonempty `p`); structural on a fuel that the wrapper sets to the list's
length, which every step consumes at least one element of. -/
def countAux (pat : List Char) : Nat → List Char → Nat
  | 0, _ => 0
  | _, [] => 0
  | fuel + 1, c :: rest =>
    if pat.isPrefixOf (c :: rest) then
      1 + countAux pat fuel (List.drop (pat.length - 1) rest)
    else countAux pat fuel rest

/-- Python `s.count(p)` for nonempty `p`. -/
def strCount (s pat : String) : Nat :=
  countAux pat.data s.data.length s.data

/-- Non-overlapping left-to-right replacement (helper for Python
`s.replace(pat, rep)` with nonempty `pat`); fuel as in `countAux`. -/
def replaceAux (pat rep : List Char) : Nat → List Char → List Char
  | 0, l => l
  | _, [] => []
  | fuel + 1, c :: rest =>
    if pat.isPrefixOf (c :: rest) then
      rep ++ replaceAux pat rep fuel (List.drop (pat.length - 1) rest)
    else c :: replaceAux pat rep fuel rest

/-- Python `s.replace(pat, rep)` for nonempty `pat`. -/
def strReplace (s pat rep : String) : String :=
  String.mk (replaceAux pat.data rep.data s.data.length s.data)

/-- Python list slice `l[:k]` (negative `k` counts from the end, clamped). -/
def pySliceTo {α : Type} (l : List α) (k : Int) : List α :=
  if k ≥ 0 then l.take k.toNat else l.take ((l.length : Int) + k).toNat

/-- Python list slice `l[k:]` (negative `k` counts from the end, clamped). -/
def pySliceFrom {α : Type} (l : List α) (k : Int) : List α :=
  if k ≥ 0 then l.drop k.toNat else l.drop ((l.length : Int) + k).toNat

/-! ### Round-trip lemmas used by the transaction proofs -/

theorem string_mk_data (s : String) : String.mk s.data = s := rfl

theorem data_mk (l : List Char) : (String.mk l).data = l := rfl

theorem mk_append (a b : List Char) :
    String.mk a ++ String.mk b = String.mk (a ++ b) := rfl

theorem strConcat_map_mk (l : List (List Char)) :
    strConcat (l.map String.mk) = String.mk l.flatten := by
  induction l with
  | nil => rfl
  | cons x xs ih =>
    simp only [List.map_cons, strConcat, ih, List.flatten_cons, mk_append]

theorem splitKeepAux_join (cs : List Char) :
    ∀ acc : List Char, (splitKeepAux cs acc).flatten = acc.reverse ++ cs := by
  induction cs with
  | nil =>
    intro acc
    simp only [splitKeepAux]
    by_cases h : acc.isEmpty
    · simp only [h, if_pos]
      simp only [List.isEmpty_iff] at h
      simp [h]
    · simp [h]
  | cons c rest ih =>
    intro acc
    simp only [splitKeepAux]
    by_cases h : c = '\n'
    · simp [h, List.flatten_cons, ih []]
    · simp only [if_neg h, ih (c :: acc)]
      simp

/-- Round trip `''.join(s.splitlines(keepends=True)) = s`: restoring a file from the
backup written with `f.writelines(lines)` reproduces the original bytes. -/
theorem strConcat_linesKeep (s : String) : strConcat (linesKeep s) = s := by
  unfold linesKeep
  rw [strConcat_map_mk, splitKeepAux_join]
  simp [string_mk_data]

/-! ## Filesystem model

A flat map from path to file content.  `fsSet` models `open(p, 'w')` +
`write` (create or truncate-and-write), `fsDel` models `os.remove` /
`os.unlink`, and `os.replace(src, dst)` is `fsSet (fsDel fs src) dst c`
where `c` is `src`'s content. -/

abbrev Fs : Type := List (String × String)

def fsGet : Fs → String → Option String
  | [], _ => none
  | (n, c) :: rest, p => if n = p then some c else fsGet rest p

def fsSet (fs : Fs) (p c : String) : Fs :=
  (p, c) :: fs

def fsDel (fs : Fs) (p : String) : Fs :=
  fs.filter fun e => e.1 ≠ p

theorem fsGet_fsSet_same (fs : Fs) (p c : String) :
    fsGet (fsSet fs p c) p = some c := by
  simp [fsGet, fsSet]

theorem fsGet_fsSet_other (fs : Fs) (p q c : String) (h : p ≠ q) :
    fsGet (fsSet fs p c) q = fsGet fs q := by
  simp [fsGet, fsSet, h]

theorem fsGet_fsDel_same (fs : Fs) (p : String) :
    fsGet (fsDel fs p) p = none := by
  induction fs with
  | nil => rfl
  | cons e rest ih =>
    by_cases h : e.1 = p
    · simpa [fsDel, fsGet, h] using ih
    · simpa [fsDel, fsGet, h] using ih

theorem fsGet_fsDel_other (fs : Fs) (p q : String) (h : p ≠ q) :
    fsGet (fsDel fs p) q = fsGet fs q := by
  induction fs with
  | nil => rfl
  | cons e rest ih =>
    by_cases he : e.1 = p
    · have hne : e.1 ≠ q := fun hq => h (he ▸ hq)
      simpa [fsDel, fsGet, he, hne, h] using ih
    · by_cases hq : e.1 = q
      · simp [fsDel, fsGet, he, hq, Ne.symm h, List.filter_cons]
      · simpa [fsDel, fsGet, he, hq, List.filter_cons] using ih

theorem fsGet_fsSet (fs : Fs) (p q c : String) :
    fsGet (fsSet fs p c) q = if p = q then some c else fsGet fs q := by
  by_cases h : p = q
  · simp [h, fsGet_fsSet_same]
  · simp [h, fsGet_fsSet_other fs p q c h]

theorem fsGet_fsDel (fs : Fs) (p q : String) :
    fsGet (fsDel fs p) q = if p = q then none else fsGet fs q := by
  by_cases h : p = q
  · simp [h, fsGet_fsDel_same]
  · simp [h, fsGet_fsDel_other fs p q h]

/-! ## `file_ops.py`: indentation helpers

`get_indent_level(text, line_start)` walks `text.split('\n')[line_start:]`
and returns `line.count('    ')` of the first line with non-blank content;
`indent_lines(text, level)` re-indents `text` to `level` four-space units
(`file_ops.py` lines 1377-1404). -/

/-- Python `'    ' * n`. -/
def dupIndent (n : Nat) : String :=
  String.mk (List.replicate (4 * n) ' ')

/-- Embedding of `get_indent_level` from `file_ops.py` (line 1400).  `lineStart = none`
models the default `line_start=None`; a negative `lineStart` indexes from
the end, as Python slices do. -/
def getIndentLevel (text : String) (lineStart : Option Int) : Nat :=
  let ls := splitCh '\n' text
  let ls := match lineStart with
    | none => ls
    | some i => pySliceFrom ls i
  match ls.find? (fun l => pyStrip l ≠ "") with
  | some l => strCount l "    "
  | none => 0

/-- Embedding of `indent_lines` from `file_ops.py` (line 1377): no-op when the text's own
`get_indent_level` equals the requested level, otherwise prepend
`'    ' * diff` to every line, or strip `'    ' * (-diff)` from the start of
each line where present (the `re.sub(r'^...', '', text, flags=re.MULTILINE)`
branch). -/
def indentLines (text : String) (level : Int) : String :=
  let currentIndentLevel : Int := getIndentLevel text none
  let lvl := level - currentIndentLevel
  if lvl = 0 then text
  else if lvl > 0 then
    joinSep "\n" ((splitCh '\n' text).map fun line => dupIndent lvl.toNat ++ line)
  else
    let indentStr := dupIndent (-lvl).toNat
    joinSep "\n" ((splitCh '\n' text).map fun line =>
      if pyStartsWith line indentStr then pyDrop line indentStr.length else line)

/-! ## `file_ops.py`: the three edit kernels -/

/-- Embedding of `_append_impl(lines, content)` from `file_ops.py` (line 366): append
`content`'s lines, first giving the last existing line a newline if it
lacks one; an empty file (no lines, or a single blank line) receives the
content alone.  Returns the new file content and the number of added
lines. -/
def appendImpl (lines : List String) (content : String) : String × Nat :=
  let contentLines := linesKeep content
  let nAdded := contentLines.length
  if lines ≠ [] ∧ ¬ (lines.length = 1 ∧ pyStrip (lines.headD "") = "") then
    let lastFixed :=
      if ¬ pyEndsWith (lines.getLastD "") "\n" then
        lines.dropLast ++ [lines.getLastD "" ++ "\n"]
      else lines
    (strConcat (lastFixed ++ contentLines), nAdded)
  else
    (strConcat contentLines, nAdded)

/-- Embedding of `_insert_impl(lines, start, content)` from `file_ops.py` (line 392):
insert `content` (as one chunk, newline-terminated) before line `start`;
a `None` start raises `LineNumberError`. -/
def insertImpl (lines : List String) (start : Option Int) (content : String) :
    Except String (String × Nat) :=
  let insertedLines := [if ¬ pyEndsWith content "\n" then content ++ "\n" else content]
  if lines = [] then .ok (strConcat insertedLines, insertedLines.length)
  else
    match start with
    | some st =>
      let lines := if lines.length = 1 ∧ pyStrip (lines.headD "") = "" then [] else lines
      if lines = [] then .ok (strConcat insertedLines, insertedLines.length)
      else
        .ok (strConcat (pySliceTo lines (st - 1) ++ insertedLines ++ pySliceFrom lines (st - 1)),
             insertedLines.length)
    | none =>
      .error "Invalid line number: None. Line numbers must be between 1 and the number of lines (inclusive)."

/-- Embedding of `_edit_impl(lines, start, end, content)` from `file_ops.py` (line 429):
replace lines `start..end` (1-indexed, inclusive) with `content`; raises
`LineNumberError` on a non-positive bound, a bound beyond the file, or
`start > end`. -/
def editImpl (lines : List String) (start endArg : Option Int) (content : String) :
    Except String (String × Nat) :=
  let lines := if lines = [] then [""] else lines
  let st := start.getD 1
  let en := endArg.getD (lines.length : Int)
  if st < 1 then .error "Start line number should be positive."
  else if en < 1 then .error "End line number should be positive."
  else if ¬ (st ≤ (lines.length : Int)) then
    .error ("Invalid start line number: " ++ toString st ++ ". Total number of lines is " ++ toString lines.length ++ " only.")
  else if ¬ (en ≤ (lines.length : Int)) then
    .error ("Invalid end line number: " ++ toString en ++ ". Total number of lines is " ++ toString lines.length ++ " only.")
  else if st > en then
    .error ("Invalid line range: " ++ toString st ++ "-" ++ toString en ++ ". Start must be less than or equal to end.")
  else
    let content := if content ≠ "" ∧ ¬ pyEndsWith content "\n" then content ++ "\n" else content
    let contentLines := linesKeep content
    let newLines := pySliceTo lines (st - 1) ++ contentLines ++ pySliceFrom lines en
    .ok (strConcat newLines, contentLines.length)

/-! ## `file_ops.py`: linting and the lint-diff subtraction

The linter itself (`DefaultLinter().lint`) is an external collaborator: the
spec treats it as a pure function from a file to a list of
`(line, column, message)` findings.  `_lint_file` (line 111) formats a
non-empty finding list as `'ERRORS:\n' + '\n'.join(f'{path}:{line}:{column}: {message}')`
and returns `None` when there are no findings. -/

structure LintFinding where
  line : Nat
  column : Nat
  message : String
  deriving DecidableEq, Repr

/-- The one formatted line `f'{file_path}:{err.line}:{err.column}: {err.message}'`
of `_lint_file`. -/
def lintLine (path : String) (f : LintFinding) : String :=
  path ++ ":" ++ toString f.line ++ ":" ++ toString f.column ++ ": " ++ f.message

/-- The report string `_lint_file` produces for a finding list (`None` when
the list is empty). -/
def lintReport (path : String) (findings : List LintFinding) : Option String :=
  if findings = [] then none
  else some ("ERRORS:\n" ++ joinSep "\n" (findings.map (lintLine path)))

/-- Embedding of `extract_last_part(line)` from `_edit_file_impl` (line 619): the text
after the last `':'`, stripped — only the trailing message text of a
finding. -/
def extractLastPart (line : String) : String :=
  let parts := splitCh ':' line
  if parts.length > 1 then pyStrip (parts.getLastD "") else pyStrip line

/-- Embedding of `subtract_strings(str1, str2)` from `_edit_file_impl` (line 625): keep
the lines of `str2` whose `extract_last_part` does not occur among the
`extract_last_part`s of `str1`'s lines. -/
def subtractStrings (str1 str2 : String) : String :=
  let lines1 := splitlinesStr str1
  let lines2 := splitlinesStr str2
  let lastParts1 := lines1.map extractLastPart
  let remainingLines := lines2.filter fun line => ¬ lastParts1.contains (extractLastPart line)
  joinSep "\n" remainingLines

/-! ## `file_ops.py`: the `_edit_file_impl` transaction -/

/-- The outcome of one `_edit_file_impl` call, abstracting the returned
message: `updated` is the success return (`'[File updated successfully]'`
plus the window print), `notApplied` is the `LineNumberError` return
(`'Your changes have NOT been applied.'`), `lintRejected` is the
lint-rollback return carrying the subtracted lint diff. -/
inductive EditOutcome where
  | updated (newContent : String)
  | notApplied (msg : String)
  | lintRejected (lintDiff : String)
  deriving DecidableEq, Repr

/-- The pure content computation of `_edit_file_impl` (lines 542-594):
the Python-falsy `if not start: start = len(old_content.splitlines())`
conversion, the `indent_lines`/`get_indent_level` re-indentation of the
caller's content, the dispatch to append/insert/edit, and the final
trailing-newline fix. -/
def editComputed (oldContent : String) (startArg endArg : Option Int) (content0 : String)
    (isInsert isAppend : Bool) : Except String String :=
  let start1 : Int := match startArg with
    | none => (splitlinesStr oldContent).length
    | some k => if k = 0 then ((splitlinesStr oldContent).length : Int) else k
  let content1 := indentLines content0 (getIndentLevel oldContent (some (start1 - 1)))
  let lines := linesKeep oldContent
  let res : Except String (String × Nat) :=
    if isAppend then .ok (appendImpl lines content1)
    else if isInsert then insertImpl lines (some start1) content1
    else editImpl lines (some start1) endArg content1
  match res with
  | .error e => .error e
  | .ok (c, _) => .ok (if ¬ pyEndsWith c "\n" then c ++ "\n" else c)

/-- The lint gate of `_edit_file_impl` (lines 640-644): with reports from
both before and after the edit, subtract the old from the new keeping an
empty difference as "no new errors"; otherwise whatever the post-edit lint
said stands. -/
def lintDecision (origLintError newLintError : Option String) : Option String :=
  match origLintError, newLintError with
  | some o, some n =>
    let d := subtractStrings o n
    if d = "" then none else some d
  | _, n => n

/-- Embedding of `_edit_file_impl` from `file_ops.py` (lines 497-732) as a filesystem
transaction.  Path-validity checks, ownership bits and the module-global
cursor bookkeeping are outside the model; the linter is the oracle `lint`
(content ↦ report, the content of the path it is invoked on being passed
directly).  Faithful step order:

1. pre-lint the original content via a clone (the clone is created and
   removed immediately, so it has no net filesystem effect);
2. create the temp file (empty) in the target's directory — on a
   `LineNumberError` the call returns from inside the `with` block and this
   empty temp file is left behind;
3. write the computed content to the temp file and `os.replace` it over the
   target;
4. with auto-lint on, write the original lines to a fresh backup file,
   lint the on-disk file, subtract the pre-edit report, and on a remaining
   diff restore the target from the backup and unlink the backup; with no
   remaining diff the backup file is left behind. -/
def editFileImpl (fs : Fs) (fileName tmpName backupName : String)
    (startArg endArg : Option Int) (content0 : String)
    (isInsert isAppend : Bool) (enableAutoLint : Bool)
    (lint : String → Option String) : EditOutcome × Fs :=
  match fsGet fs fileName with
  | none => (.notApplied "File not found.", fs)
  | some oldContent =>
    if isInsert ∧ isAppend then (.notApplied "Cannot insert and append at the same time.", fs)
    else
      let origLintError : Option String := if enableAutoLint then lint oldContent else none
      let fs1 := fsSet fs tmpName ""
      let lines := linesKeep oldContent
      match editComputed oldContent startArg endArg content0 isInsert isAppend with
      | .error e => (.notApplied e, fs1)
      | .ok newContent =>
        let fs2 := fsSet fs1 tmpName newContent
        let fs3 := fsSet (fsDel fs2 tmpName) fileName newContent
        if enableAutoLint then
          let fs4 := fsSet fs3 backupName (strConcat lines)
          let newLintError : Option String := lint ((fsGet fs3 fileName).getD "")
          match lintDecision origLintError newLintError with
          | some d =>
            let restored := (fsGet fs4 backupName).getD ""
            let fs5 := fsSet fs4 fileName restored
            let fs6 := fsDel fs5 backupName
            (.lintRejected d, fs6)
          | none => (.updated newContent, fs4)
        else (.updated newContent, fs3)

/-! ## Claim C2: atomicity of the `_edit_file_impl` transaction -/

/-- C2 (amended): every `_edit_file_impl` call either commits — the target
file holds exactly the computed edited content and the temp file in the
target's directory is gone, though with auto-lint enabled the backup copy of
the original in the system temp directory is left behind — or returns an
error outcome with the target file byte-identical to its pre-call content;
no partially written target is ever observable. -/
theorem edit_file_impl_atomic
    (fs : Fs) (fileName tmpName backupName : String)
    (startArg endArg : Option Int) (content0 : String)
    (isInsert isAppend enableAutoLint : Bool)
    (lint : String → Option String) (old : String)
    (hold : fsGet fs fileName = some old)
    (hft : fileName ≠ tmpName) (hfb : fileName ≠ backupName)
    (htb : tmpName ≠ backupName) :
    match editFileImpl fs fileName tmpName backupName startArg endArg content0
        isInsert isAppend enableAutoLint lint with
    | (.updated c, fsOut) =>
        fsGet fsOut fileName = some c ∧ fsGet fsOut tmpName = none ∧
        (enableAutoLint = true → fsGet fsOut backupName = some old)
    | (.notApplied _, fsOut) => fsGet fsOut fileName = some old
    | (.lintRejected _, fsOut) =>
        fsGet fsOut fileName = some old ∧ fsGet fsOut tmpName = none ∧
        fsGet fsOut backupName = none := by
  have hft' := Ne.symm hft
  have hfb' := Ne.symm hfb
  have htb' := Ne.symm htb
  by_cases hia : isInsert = true ∧ isAppend = true
  · simp only [editFileImpl, hold, if_pos hia]
  · cases hec : editComputed old startArg endArg content0 isInsert isAppend with
    | error e =>
      simp [editFileImpl, hold, if_neg hia, hec, fsGet_fsSet, hft']
    | ok newContent =>
      by_cases hal : enableAutoLint = true
      · simp only [editFileImpl, hold, if_neg hia, hec, hal, if_pos,
          fsGet_fsSet_same, Option.getD_some]
        cases hfl : lintDecision (lint old) (lint newContent) with
        | none =>
          simp only [hfl]
          refine ⟨?_, ?_, fun _ => ?_⟩ <;>
            simp [fsGet_fsSet, fsGet_fsDel, hft, hfb, htb, hft', hfb', htb',
              strConcat_linesKeep]
        | some d =>
          simp only [hfl, fsGet_fsSet_same, Option.getD_some]
          refine ⟨?_, ?_, ?_⟩ <;>
            simp [fsGet_fsSet, fsGet_fsDel, hft, hfb, htb, hft', hfb', htb',
              strConcat_linesKeep]
      · simp only [editFileImpl, hold, if_neg hia, hec, hal, if_neg,
          Bool.false_eq_true]
        refine ⟨?_, ?_, fun hcontra => ?_⟩ <;>
          first
            | exact hcontra.elim
            | exact absurd hcontra hal
            | simp [fsGet_fsSet, fsGet_fsDel, hft, hfb, htb, hft', hfb', htb']

/-- Witness for `edit_file_impl_atomic`: a concrete whole-line replace of
`x = 1` by `y = 2` with auto-lint enabled and a clean linter commits, leaves
no temp file, and leaves the backup behind. -/
theorem edit_file_impl_atomic_witness :
    match editFileImpl [("a.py", "x = 1\n")] "a.py" ".temp_t.py" "/tmp/bk.py"
        (some 1) (some 1) "y = 2\n" false false true (fun _ => none) with
    | (.updated c, fsOut) =>
        fsGet fsOut "a.py" = some c ∧ fsGet fsOut ".temp_t.py" = none ∧
        (true = true → fsGet fsOut "/tmp/bk.py" = some "x = 1\n")
    | (.notApplied _, fsOut) => fsGet fsOut "a.py" = some "x = 1\n"
    | (.lintRejected _, fsOut) =>
        fsGet fsOut "a.py" = some "x = 1\n" ∧ fsGet fsOut ".temp_t.py" = none ∧
        fsGet fsOut "/tmp/bk.py" = none :=
  edit_file_impl_atomic [("a.py", "x = 1\n")] "a.py" ".temp_t.py" "/tmp/bk.py"
    (some 1) (some 1) "y = 2\n" false false true (fun _ => none) "x = 1\n"
    (by decide) (by decide) (by decide) (by decide)

/-- Counterexample to C2 as stated: on a successful auto-lint edit the
backup copy of the original file (the `tempfile.NamedTemporaryFile` written
at lines 609-613 of `file_ops.py`) is still on the filesystem after the
call — it is unlinked only on the rollback path (line 697) — so the success
branch does not leave "no temporary or backup file remaining". -/
theorem edit_commit_leaves_backup_file :
    editFileImpl [("a.py", "x = 1\n")] "a.py" ".temp_t.py" "/tmp/bk.py"
        (some 1) (some 1) "y = 2\n" false false true (fun _ => none)
      = (.updated "y = 2\n",
         [("/tmp/bk.py", "x = 1\n"), ("a.py", "y = 2\n"), ("a.py", "x = 1\n")])
    ∧ fsGet [(("/tmp/bk.py" : String), ("x = 1\n" : String)),
        ("a.py", "y = 2\n"), ("a.py", "x = 1\n")] "/tmp/bk.py" = some "x = 1\n" := by
  exact ⟨rfl, rfl⟩

/-! ## Claim C1: the lint-rollback invariant and the message-keyed subtraction -/

/-- Pre-edit findings for the C1 evaluation: one `syntax error` at line 1. -/
def preFindingsC1 : List LintFinding := [⟨1, 1, "syntax error"⟩]

/-- Post-edit findings for the C1 evaluation: the pre-existing line-1
finding plus a new line-9 finding that repeats the same message text. -/
def postFindingsC1 : List LintFinding := [⟨1, 1, "syntax error"⟩, ⟨9, 1, "syntax error"⟩]

/-- The linter oracle for the C1 evaluation: the original file content
`"a\n"` lints to `preFindingsC1`, the edited content to `postFindingsC1`. -/
def lintC1 : String → Option String := fun c =>
  if c = "a\n" then lintReport "f.py" preFindingsC1 else lintReport "f.py" postFindingsC1

/-- C1 (code bug): the post-edit lint report contains a finding
(`f.py:9:1: syntax error`) absent from the pre-edit report, yet
`_edit_file_impl` commits the edit — the file content changes from `"a\n"`
to `"b\n"` — because `subtract_strings` keys findings on the trailing
message text only (`extract_last_part`), so the new line-9 finding is
masked by the pre-existing line-1 finding with the same message.  The
claimed rollback does not happen. -/
theorem lint_rollback_masked_by_message_subtraction :
    editFileImpl [("f.py", "a\n")] "f.py" ".temp_t.py" "/tmp/bk.py"
        (some 1) (some 1) "b\n" false false true lintC1
      = (.updated "b\n",
         [("/tmp/bk.py", "a\n"), ("f.py", "b\n"), ("f.py", "a\n")])
    ∧ fsGet [(("/tmp/bk.py" : String), ("a\n" : String)),
        ("f.py", "b\n"), ("f.py", "a\n")] "f.py" = some "b\n"
    ∧ "b\n" ≠ "a\n"
    ∧ (⟨9, 1, "syntax error"⟩ : LintFinding) ∈ postFindingsC1
    ∧ (⟨9, 1, "syntax error"⟩ : LintFinding) ∉ preFindingsC1
    ∧ lintLine "f.py" ⟨9, 1, "syntax error"⟩ ∉
        (splitlinesStr ((lintReport "f.py" preFindingsC1).getD "")) := by
  refine ⟨rfl, rfl, by decide, by decide, by decide, by decide⟩

/-! ## Claim C3: line-addressing bounds -/

/-- C3 (code bug): on a two-line file, an edit with `start = 0` does not
fail — `_edit_file_impl`'s `if not start:` treats `0` as falsy and replaces
it with the file's line count, so the call behaves as `start = 2` and
commits, changing the file; `start = N + 1 = 3` and `start > end` do raise
the claimed `LineNumberError` and leave the file unchanged. -/
theorem start_zero_edit_succeeds :
    editFileImpl [("f.txt", "a\nb\n")] "f.txt" ".t.txt" "/tmp/b.txt"
        (some 0) (some 2) "c\n" false false false (fun _ => none)
      = (.updated "a\nc\n", [("f.txt", "a\nc\n"), ("f.txt", "a\nb\n")])
    ∧ fsGet [(("f.txt" : String), ("a\nc\n" : String)), ("f.txt", "a\nb\n")] "f.txt"
        = some "a\nc\n"
    ∧ "a\nc\n" ≠ "a\nb\n"
    ∧ (editFileImpl [("f.txt", "a\nb\n")] "f.txt" ".t.txt" "/tmp/b.txt"
        (some 3) (some 3) "c\n" false false false (fun _ => none)).1
      = .notApplied "Invalid start line number: 3. Total number of lines is 2 only."
    ∧ fsGet (editFileImpl [("f.txt", "a\nb\n")] "f.txt" ".t.txt" "/tmp/b.txt"
        (some 3) (some 3) "c\n" false false false (fun _ => none)).2 "f.txt"
      = some "a\nb\n"
    ∧ (editFileImpl [("f.txt", "a\nb\n")] "f.txt" ".t.txt" "/tmp/b.txt"
        (some 2) (some 1) "c\n" false false false (fun _ => none)).1
      = .notApplied "Invalid line range: 2-1. Start must be less than or equal to end."
    ∧ fsGet (editFileImpl [("f.txt", "a\nb\n")] "f.txt" ".t.txt" "/tmp/b.txt"
        (some 2) (some 1) "c\n" false false false (fun _ => none)).2 "f.txt"
      = some "a\nb\n" := by
  refine ⟨rfl, rfl, by decide, rfl, rfl, rfl, rfl⟩

/-! ## Claim C10: the re-indentation of edit content -/

/-- Number of leading `'    '` units of a character list. -/
def leadingUnits : List Char → Nat
  | ' ' :: ' ' :: ' ' :: ' ' :: rest => leadingUnits rest + 1
  | _ => 0

/-- The claim's notion of "the content's own leading indentation": the
number of leading four-space units of the first non-blank line.  Stated
from the claim's words for comparison — the source's `get_indent_level`
instead counts `'    '` occurrences anywhere in that line. -/
def leadingIndentLevel (text : String) : Nat :=
  match (splitCh '\n' text).find? (fun l => pyStrip l ≠ "") with
  | some l => leadingUnits l.data
  | none => 0

/-- Counterexample to C10's "only when" clause: the content `"x    y"` has
leading indentation level 0 while the surrounding code at the start line of
`"    a\n"` has level 1, yet the content passes through `indent_lines`
unchanged and reaches the file verbatim (up to the appended newline) —
`get_indent_level` counts the interior `'    '` of `"x    y"` as one unit,
so the re-indentation is a no-op despite the mismatched leading
indentation. -/
theorem unchanged_content_with_mismatched_leading_indent :
    indentLines "x    y" (getIndentLevel "    a\n" (some 0)) = "x    y"
    ∧ editFileImpl [("g.py", "    a\n")] "g.py" ".t.py" "/tmp/c.py"
        (some 1) (some 1) "x    y" false false false (fun _ => none)
      = (.updated "x    y\n", [("g.py", "x    y\n"), ("g.py", "    a\n")])
    ∧ leadingIndentLevel "x    y" = 0
    ∧ getIndentLevel "    a\n" (some 0) = 1
    ∧ (0 : Nat) ≠ 1 := by
  refine ⟨rfl, rfl, by decide, by decide, by decide⟩

/-- C10 (amended): every edit's content is re-indented through
`indent_lines` before being written, and the content passes that step
unchanged whenever its own `get_indent_level` — which counts four-space
groups anywhere in its first non-blank line, not only leading whitespace —
already equals the surrounding level; content whose `get_indent_level`
differs is rewritten, as the concrete conjunct shows: `"x"` written at a
level-1 line reaches the file as `"    x\n"`, not verbatim. -/
theorem indent_level_match_passes_content_unchanged :
    (∀ (text : String) (level : Int),
      (getIndentLevel text none : Int) = level → indentLines text level = text)
    ∧ editFileImpl [("h.py", "    a\n")] "h.py" ".t2.py" "/tmp/c2.py"
        (some 1) (some 1) "x" false false false (fun _ => none)
      = (.updated "    x\n", [("h.py", "    x\n"), ("h.py", "    a\n")]) := by
  constructor
  · intro text level h
    simp only [indentLines, ← h, sub_self]
    simp
  · rfl

/-- Witness for `indent_level_match_passes_content_unchanged`: content
`"    x"` has `get_indent_level` 1 and passes a level-1 re-indentation
unchanged. -/
theorem indent_level_match_witness :
    indentLines "    x" 1 = "    x" :=
  indent_level_match_passes_content_unchanged.1 "    x" 1 (by decide)

/-! ## `bash_pexpect.py`: the `BashSession`

`BashSession` (line 150) keeps `username`, `last_command` (set to `''` in
`__init__` line 166) and `_cwd` (set once in `initialize`, line 187).
`execute` (line 203) first runs a chain of canned-output checks, then sends
the command to the shell, waits for the sentinel prompt
(`bash_expect_regex`), and returns a `CmdOutputObservation` whose metadata
is literally `CmdOutputMetadata(exit_code=0)`.  The raw `pexpect` capture
`self.child.before` is the oracle parameter `shellBefore`; the
`os.getenv('NO_PIP_INSTALL') == '1'` lookup is the boolean
`noPipInstallEnv`. -/

structure CmdObs where
  content : String
  command : String
  exitCode : Int
  deriving DecidableEq, Repr

structure BashState where
  username : Option String
  lastCommand : String
  cwd : String
  deriving DecidableEq, Repr

/-- The canned-output check chain of `BashSession.execute`
(lines 211-231). -/
def cannedOutput (st : BashState) (command : String) (noPipInstallEnv : Bool) :
    Option String :=
  if command = st.lastCommand ∧ (command = "ls -l" ∨ command = "ls -la") then
    some "[Why are you executing the same command twice? What's wrong with you? Please focus 🙏]"
  else if pyStartsWith command "cd" then
    let path := pyStrip (pyDrop command 3)
    if st.cwd = path then some "[You are already in this directory.]" else none
  else if st.username = some "root" then
    if pyStartsWith command "git blame" then
      some "[Don't use git commands. Just directly give the solution.]"
    else if strContains command "pip install" ∧ noPipInstallEnv then
      some "[Use the current packages only.]"
    else if strContains command "/tmp/test_task.py" ∧ ¬ strContains command "cat"
        ∧ ¬ strContains command "python3" ∧ ¬ strContains command "pytest" then
      some "[The content in this file is absolutely correct. Also, you can't modify this test file. You must pass this test case. You should correct the codebase instead.]"
    else if pyStartsWith command "pytest" ∧ ¬ strContains command ".py" then
      some "[Please run specific test cases instead of running all test cases.]"
    else none
  else none

/-- Embedding of `BashSession.execute` (lines 203-249): strip the action's command, run
the canned-output checks, otherwise send the command and wrap the capture.
Both paths return `exit_code = 0`, and nothing updates `last_command` or
`_cwd`, so the session state is returned unchanged. -/
def executeModel (st : BashState) (command0 : String) (noPipInstallEnv : Bool)
    (shellBefore : String) : CmdObs × BashState :=
  let command := pyStrip command0
  match cannedOutput st command noPipInstallEnv with
  | some out => ({ content := out, command := "", exitCode := 0 }, st)
  | none =>
    let output := pyStrip (pyDrop shellBefore command.length)
    ({ content := output, command := command, exitCode := 0 }, st)

/-! ## Claim C4: sentinel parsing of exit status and cwd -/

/-- Counterexample to C4: executing `cd /tmp && false` — a command whose
actual exit status in the shell is 1 and which leaves the shell in `/tmp` —
returns an observation with exit code 0 and leaves the session's recorded
cwd at `/workspace`: `execute` hard-codes `CmdOutputMetadata(exit_code=0)`
and never parses the sentinel's captured fields into `_cwd` (the `PS1`
sentinel carries no exit-status field at all). -/
theorem exit_code_and_cwd_not_recovered :
    (executeModel ⟨some "openhands", "", "/workspace"⟩ "cd /tmp && false" false
        "cd /tmp && false\r\n").1.exitCode = 0
    ∧ (0 : Int) ≠ 1
    ∧ (executeModel ⟨some "openhands", "", "/workspace"⟩ "cd /tmp && false" false
        "cd /tmp && false\r\n").2.cwd = "/workspace"
    ∧ "/workspace" ≠ "/tmp" := by
  refine ⟨rfl, by decide, rfl, by decide⟩

/-- C4 (amended): whenever `BashSession.execute` returns — with or without
a canned short-circuit — the observation's exit code is 0 regardless of the
command's actual exit status, and the session state (its `cwd` included) is
exactly the state before the call: the sentinel's trailing fields are never
parsed. -/
theorem execute_exit_code_zero_and_state_unchanged
    (st : BashState) (command0 : String) (noPipInstallEnv : Bool)
    (shellBefore : String) :
    (executeModel st command0 noPipInstallEnv shellBefore).1.exitCode = 0
    ∧ (executeModel st command0 noPipInstallEnv shellBefore).2 = st := by
  simp only [executeModel]
  cases h : cannedOutput st (pyStrip command0) noPipInstallEnv <;> simp [h]

/-! ## Claim C9: the repeated-command detection -/

/-- C9 (code bug): `execute` never assigns `self.last_command`, so after
running `ls -l` the recorded last command is still the `''` from
`__init__`, and a second consecutive `ls -l` is sent to the shell normally
(its observation echoes the command and carries the shell output) instead
of triggering the repeated-command warning, whose observation would carry
`command = ''` and the canned text. -/
theorem last_command_never_updated :
    (executeModel ⟨some "openhands", "", "/workspace"⟩ "ls -l" false
        "ls -l\r\ntotal 0").2.lastCommand = ""
    ∧ (executeModel ⟨some "openhands", "", "/workspace"⟩ "ls -l" false
        "ls -l\r\ntotal 0").2.lastCommand ≠ "ls -l"
    ∧ (executeModel
        (executeModel ⟨some "openhands", "", "/workspace"⟩ "ls -l" false
          "ls -l\r\ntotal 0").2 "ls -l" false "ls -l\r\ntotal 0").1
      = { content := "total 0", command := "ls -l", exitCode := 0 }
    ∧ (executeModel
        (executeModel ⟨some "openhands", "", "/workspace"⟩ "ls -l" false
          "ls -l\r\ntotal 0").2 "ls -l" false "ls -l\r\ntotal 0").1.content
      ≠ "[Why are you executing the same command twice? What's wrong with you? Please focus 🙏]" := by
  refine ⟨rfl, by decide, rfl, by decide⟩

/-! ## `action_execution_server.py`: `ActionExecutor.write` and `.read`

`write` (line 503) splits the action's content on `'\n'`; for a file that
does not yet exist it opens with mode `'w'` and writes
`[i + '\n' for i in insert]`; for an existing file it merges via
`insert_lines(insert, all_lines, action.start, action.end)` from
`openhands/runtime/utils/files.py`, a module that is not among the provided
sources, so it stays an oracle parameter here.  After the `with` block
closes the file (and the chmod/chown metadata handling, outside the
model), lines 555-557 repeat `file.seek(0)`, `file.writelines(new_file)`,
`file.truncate()` on the now-closed file object: `seek` on a closed file
raises `ValueError`, which none of the `except` clauses at lines 559-566
catch (`FileNotFoundError`, `IsADirectoryError`, `UnicodeDecodeError`), so
the success return `FileWriteObservation(content='', path=filepath)` at
line 583 is unreachable on every input; the written bytes, however, are
already on disk.  `read` (line 434) returns
`''.join(read_lines(file.readlines(), start, end))`. -/

inductive WriteResult where
  /-- The `FileWriteObservation` return at line 583 — dead code, kept to
  mirror the source. -/
  | ok (content path : String)
  | writeError (msg : String)
  /-- The uncaught `ValueError: I/O operation on closed file` raised by
  line 555's `file.seek(0)` after the `with` block has closed the file. -/
  | uncaughtValueError
  deriving DecidableEq, Repr

/-- Embedding of `ActionExecutor.write`: `insertLines` is the missing
`files.insert_lines`, used only on the existing-file branch.  Both
branches write the new content inside the `with` block (lines 539-541) and
then hit the duplicated `file.seek(0)` on the closed file (line 555), so
the call always ends in the uncaught `ValueError` with the content already
written. -/
def writeModel (fs : Fs) (path content : String) (startArg endArg : Int)
    (insertLines : List String → List String → Int → Int → List String) :
    WriteResult × Fs :=
  let insert := splitCh '\n' content
  match fsGet fs path with
  | some oldContent =>
    let allLines := linesKeep oldContent
    let newFile := insertLines insert allLines startArg endArg
    let fs1 := fsSet fs path (strConcat newFile)
    (.uncaughtValueError, fs1)
  | none =>
    let newFile := insert.map fun i => i ++ "\n"
    let fs1 := fsSet fs path (strConcat newFile)
    (.uncaughtValueError, fs1)

inductive ReadResult where
  | ok (content path : String)
  | readError (msg : String)
  deriving DecidableEq, Repr

/-- Modelled from the spec: `read_lines` from
`openhands/runtime/utils/files.py` is imported by
`action_execution_server.py` but is not among the provided sources.  Per
the spec, `ReadFile{path, start, end}` returns the file's content for the
requested line range, the defaults (`start = 0`, `end = -1`) selecting the
whole file. -/
def readLinesSpec (allLines : List String) (startArg endArg : Int) : List String :=
  if endArg = -1 then pySliceFrom allLines startArg
  else pySliceTo (pySliceFrom allLines startArg) (endArg - startArg)

/-- Embedding of `ActionExecutor.read` for a plain text file (line 487): read the lines,
select the requested range, join, and return a `FileReadObservation`; a
missing file is an `ErrorObservation`. -/
def readModel (fs : Fs) (path : String) (startArg endArg : Int) : ReadResult :=
  match fsGet fs path with
  | none => .readError ("File not found: " ++ path ++ ".")
  | some c => .ok (strConcat (readLinesSpec (linesKeep c) startArg endArg)) path

/-! ## Claim C6: the write-then-read scenario -/

/-- C6 (code bug): `WriteFile{path="/tmp/a.txt", content="x=1\n", start=0,
end=-1}` on a nonexistent path diverges from the claim twice.  The bytes
written are `"x=1\n\n"`, not `"x=1\n"` — `write` splits `"x=1\n"` on `'\n'`
into `["x=1", ""]` and appends a newline to each piece, adding a trailing
blank line.  And no success observation is returned: after the `with`
block closes the file, the duplicated `file.seek(0)` at
`action_execution_server.py` line 555 raises an uncaught `ValueError`, so
the `FileWriteObservation` return at line 583 is unreachable — on every
write, not just this one.  A subsequent `FileReadAction` does return the
on-disk content `"x=1\n\n"`. -/
theorem write_raises_on_closed_file :
    writeModel [] "/tmp/a.txt" "x=1\n" 0 (-1) (fun ins _ _ _ => ins)
      = (.uncaughtValueError, [("/tmp/a.txt", "x=1\n\n")])
    ∧ "x=1\n\n" ≠ "x=1\n"
    ∧ (∀ c p : String, (writeModel [] "/tmp/a.txt" "x=1\n" 0 (-1)
        (fun ins _ _ _ => ins)).1 ≠ .ok c p)
    ∧ readModel [("/tmp/a.txt", "x=1\n\n")] "/tmp/a.txt" 0 (-1)
      = .ok "x=1\n\n" "/tmp/a.txt" := by
  refine ⟨rfl, by decide, ?_, rfl⟩
  intro c p
  intro h
  exact WriteResult.noConfusion h

/-! ## `action_execution_server.py`: `ActionExecutor.run_ipython` and `.chdir`

`run_ipython` (line 314), inside the `'jupyter' in self.plugins` branch,
first compares `self.bash_session.cwd` with `getattr(self, '_jupyter_cwd',
None)` and calls `self.chdir()` on a mismatch; `chdir` (line 249) silently
runs `import os; os.chdir("<cwd>")` in the kernel and records
`self._jupyter_cwd = self.bash_session.cwd`.  Then the canned-error checks
run, the (possibly `!pip`-rewritten) code goes to the kernel — the oracle
`pluginRun` — and `last_code`/`is_last_code_error` are updated.  The
package-install and `oh_aci` output rewriting only reshape the returned
text and are not modelled. -/

structure ExecutorState where
  hasJupyter : Bool
  jupyterCwd : Option String
  bashCwd : String
  lastCode : String
  isLastCodeError : Bool
  execUsername : Option String
  deriving DecidableEq, Repr

inductive IObs where
  | ok (content : String)
  | errorObs (msg : String)
  | raisesRuntimeError
  deriving DecidableEq, Repr

/-- The silent `os.chdir` call `chdir` issues into the kernel. -/
def chdirCode (cwd : String) : String :=
  "import os; os.chdir(\"" ++ cwd ++ "\")"

/-- Embedding of `ActionExecutor.chdir` (line 249): no-op without the jupyter plugin;
otherwise run the silent directory change in the kernel and record the
synchronized directory.  The second component is the list of silent kernel
calls issued. -/
def chdirModel (st : ExecutorState) : ExecutorState × List String :=
  if ¬ st.hasJupyter then (st, [])
  else ({ st with jupyterCwd := some st.bashCwd }, [chdirCode st.bashCwd])

/-- Embedding of `ActionExecutor.run_ipython` (lines 314-426).  Returns the state after
the call, the silent kernel calls issued before the action's own code, and
the observation. -/
def runIpythonModel (st : ExecutorState) (code : String)
    (pluginRun : String → String) : ExecutorState × List String × IObs :=
  if st.hasJupyter then
    let syncPair := if some st.bashCwd ≠ st.jupyterCwd then chdirModel st else (st, [])
    let st1 := syncPair.1
    let calls := syncPair.2
    if pyStartsWith code "%%writefile /tmp/test_task.py" then
      (st1, calls, .errorObs "[The content in this file is absolutely correct. Also, you can't modify this test file. You must pass this test case. You should correct the codebase instead.]")
    else if st1.execUsername = some "root" ∧ code = st1.lastCode ∧ st1.isLastCodeError then
      (st1, calls, .errorObs "[You are trying to run the same code twice. Please focus and run the correct code.]")
    else
      let code1 := strReplace code "!pip" "%pip"
      let out := pyRstrip (pluginRun code1)
      let st2 := { st1 with
        lastCode := code1,
        isLastCodeError := strContains out "Traceback (most recent call last)" }
      (st2, calls, .ok out)
  else (st, [], .raisesRuntimeError)

/-! ## Claim C8: cwd re-synchronization before code-cell actions -/

/-- C8: with the jupyter plugin loaded, whenever the bash session's cwd
differs from the last-synchronized Jupyter working directory, running a
code cell first issues the silent `os.chdir` call into the bash cwd, and
the recorded Jupyter working directory afterwards equals the bash session's
cwd. -/
theorem ipython_cwd_resync
    (st : ExecutorState) (code : String) (pluginRun : String → String)
    (hj : st.hasJupyter = true) (hdiff : some st.bashCwd ≠ st.jupyterCwd) :
    (runIpythonModel st code pluginRun).2.1 = [chdirCode st.bashCwd]
    ∧ (runIpythonModel st code pluginRun).1.jupyterCwd = some st.bashCwd := by
  simp only [runIpythonModel, chdirModel, hj, hdiff]
  constructor <;> (simp only [not_true, ite_true, ite_false, if_true, if_false]) <;>
    (split_ifs <;> rfl)

/-- Witness for `ipython_cwd_resync`: a fresh executor (no synchronization
yet) running `print(1)` first issues `os.chdir("/workspace")` and records
`/workspace` as the Jupyter working directory. -/
theorem ipython_cwd_resync_witness :
    (runIpythonModel ⟨true, none, "/workspace", "", false, some "root"⟩
        "print(1)" (fun _ => "1")).2.1 = [chdirCode "/workspace"]
    ∧ (runIpythonModel ⟨true, none, "/workspace", "", false, some "root"⟩
        "print(1)" (fun _ => "1")).1.jupyterCwd = some "/workspace" :=
  ipython_cwd_resync ⟨true, none, "/workspace", "", false, some "root"⟩
    "print(1)" (fun _ => "1") rfl (by decide)

/-! ## `bash_pexpect.py`: `escape_bash_special_chars`

The function (line 73) walks the `bashlex` parse of the command.  `bashlex`
is a third-party parser, so the parse result is a parameter: `BNode`
captures exactly the node shapes `visit_node` distinguishes — a redirect
node carrying a heredoc, a word node, any node with `parts`, and any other
leaf (operators etc.).  Positions are code-point offsets into the command.
The regex `re.sub(r'\\([;&|><])', r'\\\\\1', text)` — which doubles the
backslash of an already backslash-escaped control character and touches
nothing else — is `subEscSpecial`. -/

/-- Tests for `;`, `&`, `|`, `>`, `<`. -/
def isSpecialChar (c : Char) : Bool :=
  c = ';' ∨ c = '&' ∨ c = '|' ∨ c = '>' ∨ c = '<'

/-- Python `re.sub(r'\\([;&|><])', r'\\\\\1', s)` on a character list. -/
def escAux : List Char → List Char
  | [] => []
  | '\\' :: c :: rest =>
    if isSpecialChar c then '\\' :: '\\' :: c :: escAux rest
    else '\\' :: escAux (c :: rest)
  | c :: rest => c :: escAux rest

/-- Python `re.sub(r'\\([;&|><])', r'\\\\\1', s)`. -/
def subEscSpecial (s : String) : String :=
  String.mk (escAux s.data)

/-- The `bashlex` node shapes `visit_node` distinguishes. -/
inductive BNode where
  | word (s e : Nat)
  | heredocRedirect (s e hs he : Nat)
  | group (s e : Nat) (parts : List BNode)
  | leaf (s e : Nat)
  deriving Repr

/-- Start position of a node (`node.pos[0]`). -/
def BNode.pos0 : BNode → Nat
  | .word s _ => s
  | .heredocRedirect s _ _ _ => s
  | .group s _ _ => s
  | .leaf s _ => s

/-- The quoted-word test of `visit_node` (lines 101-106): double-quoted,
single-quoted, `$(...)`, or backquoted word text is appended unchanged. -/
def isQuotedWord (w : String) : Bool :=
  let dq := "\""
  let sq := String.mk [Char.ofNat 39]
  let bq := String.mk [Char.ofNat 96]
  (pyStartsWith w dq ∧ pyEndsWith w dq)
  ∨ (pyStartsWith w sq ∧ pyEndsWith w sq)
  ∨ (pyStartsWith w "$(" ∧ pyEndsWith w ")")
  ∨ (pyStartsWith w bq ∧ pyEndsWith w bq)

/-- The contribution of a word node's own text (lines 101-110): quoted word
text verbatim, otherwise with the `\X` escapes doubled. -/
def wordPart (cmd : String) (s e : Nat) : String :=
  let wordText := pySlice cmd s e
  if isQuotedWord wordText then wordText else subEscSpecial wordText

mutual

/-- Embedding of `visit_node` (lines 81-116): state is the accumulated `parts` plus
`last_pos`. -/
def visitNode (cmd : String) : BNode → List String × Nat → List String × Nat
  | .heredocRedirect s e hs he, (parts, lastPos) =>
    (parts ++ [pySlice cmd lastPos s, pySlice cmd s hs, pySlice cmd hs he], e)
  | .word s e, (parts, lastPos) =>
    let between := subEscSpecial (pySlice cmd lastPos s)
    (parts ++ [between, wordPart cmd s e], e)
  | .group _ _ ps, st => visitList cmd ps st
  | .leaf _ _, st => st

def visitList (cmd : String) : List BNode → List String × Nat → List String × Nat
  | [], st => st
  | n :: ns, st => visitList cmd ns (visitNode cmd n st)

end

/-- Embedding of `escape_bash_special_chars` (lines 73-136): empty-after-strip commands
give `''`; a parse failure (`parse = none`, the
`bashlex.errors.ParsingError` / `NotImplementedError` handler at line 129)
returns the input unchanged; otherwise the between-text before each top
node is escape-substituted, the node visited, and the remainder appended
raw. -/
def escapeBashSpecialChars (cmd : String) (parse : Option (List BNode)) : String :=
  if pyStrip cmd = "" then ""
  else
    match parse with
    | none => cmd
    | some nodes =>
      let st := nodes.foldl
        (fun (st : List String × Nat) n =>
          let between := subEscSpecial (pySlice cmd st.2 n.pos0)
          visitNode cmd n (st.1 ++ [between], n.pos0))
        ([], 0)
      strConcat (st.1 ++ [pySlice cmd st.2 cmd.data.length])

/-! ## Claim C7: what the escaping routine rewrites -/

/-- The `bashlex` parse of `"a;b"`: one list node spanning the whole
command whose parts are the command `a` (a single word at 0-1), the `;`
operator at 1-2, and the command `b` (a single word at 2-3). -/
def parseSemicolonAB : List BNode :=
  [.group 0 3 [.group 0 1 [.word 0 1], .leaf 1 2, .group 2 3 [.word 2 3]]]

/-- Counterexample to C7: `"a;b"` parses, contains a bare `;` outside any
quote, substitution or heredoc (the string has no quote, backslash,
backquote or `$` character at all), yet the routine returns it byte-for-byte
unchanged — only backslash-escaped control characters are rewritten, bare
ones never are. -/
theorem bare_semicolon_not_rewritten :
    escapeBashSpecialChars "a;b" (some parseSemicolonAB) = "a;b"
    ∧ strContains "a;b" ";" = true
    ∧ strContains "a;b" "\\" = false
    ∧ strContains "a;b" "\"" = false
    ∧ strContains "a;b" (String.mk [Char.ofNat 39]) = false
    ∧ strContains "a;b" (String.mk [Char.ofNat 96]) = false
    ∧ strContains "a;b" "$" = false := by
  refine ⟨rfl, by decide, by decide, by decide, by decide, by decide, by decide⟩

theorem escAux_cons_ne (c : Char) (rest : List Char) (hc : c ≠ '\\') :
    escAux (c :: rest) = c :: escAux rest := by
  cases rest with
  | nil => simp [escAux, hc]
  | cons d r => simp [escAux, hc]

/-- C7 (amended): the escaping routine only doubles the backslash of
backslash-escaped control characters: (i) on parse failure the input is
returned unchanged (modulo the empty-after-strip short-circuit); (ii) a
quoted word's span is contributed to the output byte-for-byte unchanged;
(iii) text without any backslash — bare control characters included —
passes the substitution untouched. -/
theorem escape_rewrites_only_backslash_escapes :
    (∀ cmd : String, pyStrip cmd ≠ "" → escapeBashSpecialChars cmd none = cmd)
    ∧ (∀ (cmd : String) (s e : Nat),
        isQuotedWord (pySlice cmd s e) = true → wordPart cmd s e = pySlice cmd s e)
    ∧ (∀ s : String, strContains s "\\" = false → subEscSpecial s = s) := by
  refine ⟨?_, ?_, ?_⟩
  · intro cmd h
    simp [escapeBashSpecialChars, h]
  · intro cmd s e h
    simp [wordPart, h]
  · intro s h
    have hgen : ∀ l : List Char, containsAux ['\\'] l = false → escAux l = l := by
      intro l
      induction l with
      | nil => intro _; rfl
      | cons c rest ih =>
        intro hl
        simp only [containsAux, Bool.or_eq_false_iff] at hl
        obtain ⟨h1, h2⟩ := hl
        have hc : c ≠ '\\' := by
          intro hcc
          subst hcc
          simp [List.isPrefixOf] at h1
        rw [escAux_cons_ne c rest hc, ih h2]
    have hdata : escAux s.data = s.data := hgen s.data h
    show String.mk (escAux s.data) = s
    rw [hdata]

/-- Witness for `escape_rewrites_only_backslash_escapes`: a failed parse of
`ls` returns `ls`; the double-quoted word of `echo "a;b"` is contributed
unchanged; the backslash-free `a;b` passes the substitution untouched. -/
theorem escape_rewrites_only_backslash_escapes_witness :
    escapeBashSpecialChars "ls" none = "ls"
    ∧ wordPart "echo \"a;b\"" 5 10 = pySlice "echo \"a;b\"" 5 10
    ∧ subEscSpecial "a;b" = "a;b" :=
  ⟨escape_rewrites_only_backslash_escapes.1 "ls" (by decide),
   escape_rewrites_only_backslash_escapes.2.1 "echo \"a;b\"" 5 10 (by decide),
   escape_rewrites_only_backslash_escapes.2.2 "a;b" (by decide)⟩

/-! ## Claim C5: the no-change timeout -/

/-- Embedding of `BashCommandStatus` from `bash_pexpect.py` (line 139).
The enum is declared in the source, but `BashSession.execute` never
constructs any of its values: the no-change machinery the enum (and the
`no_change_timeout_seconds` constructor parameter, stored at line 162 and
never read) names is dead code in that file. -/
inductive BashCommandStatus where
  | cont
  | completed
  | noChangeTimeout
  | hardTimeout
  deriving DecidableEq, Repr

/-- C5 (code bug): `BashSession.execute` contains no poll loop — it blocks
in `child.expect(self.bash_expect_regex)` (line 241) until the sentinel
prompt appears, then returns the complete captured output with exit code 0.
Evaluated at the claim's scenario, `sleep 60` yields the ordinary
post-sentinel observation, and no call on any input returns the claimed
exit code `-1`, so an observation in `NO_CHANGE_TIMEOUT` form (partial
output, exit code `-1`) is never produced: `no_change_timeout_seconds` is
stored by `__init__` and never read, and `BashCommandStatus.NO_CHANGE_TIMEOUT`
is never constructed. -/
theorem no_change_timeout_never_returned :
    (executeModel ⟨some "openhands", "", "/workspace"⟩ "sleep 60" false
        "sleep 60\r\n").1
      = { content := "", command := "sleep 60", exitCode := 0 }
    ∧ (∀ (st : BashState) (command0 : String) (noPipInstallEnv : Bool)
        (shellBefore : String),
        (executeModel st command0 noPipInstallEnv shellBefore).1.exitCode ≠ -1) := by
  refine ⟨rfl, ?_⟩
  intro st command0 noPipInstallEnv shellBefore
  simp only [executeModel]
  cases h : cannedOutput st (pyStrip command0) noPipInstallEnv <;> simp [h]

end Kevin
